import Mathlib

/-!
Shallow embedding of the poll server actions of the ALX Polly repository
(`app/lib/actions/poll-actions.ts`) and proofs of its specified properties.

Strings are modelled as Lean `String` (lists of characters).  String length is
the number of characters; the original counts UTF-16 code units, which agrees
on the concrete inputs considered here.

The external backend (database and auth service) is modelled as explicit
state: a `Db` value holding the `polls` and `votes` tables plus the log of
cache-invalidation requests, and an `Auth` value describing the outcome of
`supabase.auth.getUser()`.  The backend itself is assumed not to fail; rows
generated by the backend on insert (fresh id, creation timestamp) are passed
as extra parameters.
-/

namespace Polly

/-- Whitespace recognised by JavaScript `String.prototype.trim`
(the characters relevant here). -/
def isJsWhitespace (c : Char) : Bool :=
  c = ' ' || c = '\t' || c = '\n' || c = '\r' ||
  c = Char.ofNat 0x0b || c = Char.ofNat 0x0c || c = Char.ofNat 0xa0 ||
  c = Char.ofNat 0xfeff

/-- The effect of `input.trim()` on the character list. -/
def trimChars (l : List Char) : List Char :=
  ((l.dropWhile isJsWhitespace).reverse.dropWhile isJsWhitespace).reverse

/-- Trimming `s.trim()` as used by `validatePollInput` and `sanitizeString`. -/
def trimS (s : String) : String :=
  ⟨trimChars s.data⟩

/-- Matching of `[^>]*>`: consume characters up to and including the first
`>`; return the remaining suffix, or `none` when no `>` occurs. -/
def splitAtGt : List Char → Option (List Char)
  | [] => none
  | c :: rest => if c = '>' then some rest else splitAtGt rest

theorem splitAtGt_length {l rest : List Char} (h : splitAtGt l = some rest) :
    rest.length < l.length := by
  induction l with
  | nil => simp [splitAtGt] at h
  | cons c cs ih =>
    by_cases hc : c = '>'
    · simp [splitAtGt, hc] at h
      subst h
      simp
    · simp [splitAtGt, hc] at h
      exact Nat.lt_trans (ih h) (by simp)

/-- One scan step of the global replacement of `/<[^>]*>/g` by the empty
string, with explicit fuel (any fuel at least the list length gives the
replacement): each `<` that is followed by some later `>` is removed together
with everything up to that first `>`; a `<` with no later `>` never matches
and is kept. -/
def removeTagsF : Nat → List Char → List Char
  | 0, _ => []
  | _ + 1, [] => []
  | fuel + 1, c :: rest =>
    if c = '<' then
      match splitAtGt rest with
      | some rest' => removeTagsF fuel rest'
      | none => c :: removeTagsF fuel rest
    else
      c :: removeTagsF fuel rest

/-- Global replacement of `/<[^>]*>/g` by the empty string. -/
def removeTags (l : List Char) : List Char :=
  removeTagsF l.length l

/-- Case-insensitive literal match: `ciMatch pat l` returns the suffix of
`l` after a case-insensitive occurrence of `pat` at its head (`pat` is given
in lower case), or `none`. -/
def ciMatch : List Char → List Char → Option (List Char)
  | [], l => some l
  | _ :: _, [] => none
  | p :: ps, c :: cs => if c.toLower = p then ciMatch ps cs else none

theorem ciMatch_length {pat l rest : List Char} (h : ciMatch pat l = some rest) :
    rest.length ≤ l.length := by
  induction pat generalizing l with
  | nil =>
    simp [ciMatch] at h
    simp [h]
  | cons p ps ih =>
    match l with
    | [] => simp [ciMatch] at h
    | c :: cs =>
      by_cases hc : c.toLower = p
      · simp [ciMatch, hc] at h
        exact Nat.le_trans (ih h) (by simp)
      · simp [ciMatch, hc] at h

/-- JavaScript line terminators, which `.` never matches (no `s` flag). -/
def isLineTerm (c : Char) : Bool :=
  c = '\n' || c = '\r' || c = Char.ofNat 0x2028 || c = Char.ofNat 0x2029

/-- Matching of the lazy tail `.*?<\/script>` (flags `gi`, no `s`): find the
earliest case-insensitive `</script>`, with every skipped character a
non-line-terminator; return the suffix after it. -/
def findClose : List Char → Option (List Char)
  | [] => none
  | c :: rest =>
    match ciMatch ('<' :: '/' :: 's' :: 'c' :: 'r' :: 'i' :: 'p' :: 't' :: '>' :: []) (c :: rest) with
    | some suffix => some suffix
    | none => if isLineTerm c then none else findClose rest

theorem findClose_length {l rest : List Char} (h : findClose l = some rest) :
    rest.length ≤ l.length := by
  induction l with
  | nil => simp [findClose] at h
  | cons c cs ih =>
    rw [findClose] at h
    rcases hp : ciMatch ('<' :: '/' :: 's' :: 'c' :: 'r' :: 'i' :: 'p' :: 't' :: '>' :: []) (c :: cs) with _ | suf
    · rw [hp] at h
      by_cases hl : isLineTerm c
      · simp [hl] at h
      · simp [hl] at h
        exact Nat.le_trans (ih h) (by simp)
    · rw [hp] at h
      simp at h
      subst h
      exact ciMatch_length hp

/-- Matching of `/<script[^>]*>.*?<\/script>/i` anchored at the head of the
list: on success, the suffix after the whole match. -/
def matchScript (l : List Char) : Option (List Char) :=
  match l with
  | [] => none
  | c :: rest =>
    if c = '<' then
      (ciMatch ('s' :: 'c' :: 'r' :: 'i' :: 'p' :: 't' :: []) rest).bind fun afterName =>
        (splitAtGt afterName).bind fun afterOpen =>
          findClose afterOpen
    else
      none

theorem matchScript_length {l rest : List Char} (h : matchScript l = some rest) :
    rest.length < l.length := by
  match l with
  | [] => simp [matchScript] at h
  | c :: cs =>
    rw [matchScript] at h
    by_cases hc : c = '<'
    · rw [if_pos hc] at h
      simp only [Option.bind_eq_some] at h
      obtain ⟨afterName, hp, afterOpen, hs, hf⟩ := h
      have h1 := findClose_length hf
      have h2 := splitAtGt_length hs
      have h3 := ciMatch_length hp
      simp only [List.length_cons]
      omega
    · rw [if_neg hc] at h
      simp at h

/-- Global replacement of `/<script[^>]*>.*?<\/script>/gi` by the empty
string, with explicit fuel (any fuel at least the list length gives the
replacement): scan left to right, removing each leftmost match. -/
def removeScriptsF : Nat → List Char → List Char
  | 0, _ => []
  | _ + 1, [] => []
  | fuel + 1, c :: rest =>
    match matchScript (c :: rest) with
    | some suffix => removeScriptsF fuel suffix
    | none => c :: removeScriptsF fuel rest

/-- Global replacement of `/<script[^>]*>.*?<\/script>/gi` by the empty
string. -/
def removeScripts (l : List Char) : List Char :=
  removeScriptsF l.length l

/-- Function `sanitizeString` from `poll-actions.ts`:
`input.trim().replace(/<script[^>]*>.*?<\/script>/gi, '').replace(/<[^>]*>/g, '')`. -/
def sanitizeString (s : String) : String :=
  ⟨removeTags (removeScripts (trimChars s.data))⟩

/-- The message pushed for an empty option at 0-based position `i`
(the source renders the 1-based position). -/
def emptyOptionMsg (i : Nat) : String :=
  "Option " ++ toString (i + 1) ++ " cannot be empty"

/-- The message pushed for an over-long option at 0-based position `i`. -/
def longOptionMsg (i : Nat) : String :=
  "Option " ++ toString (i + 1) ++ " must be less than 200 characters"

/-- The per-option loop of `validatePollInput`
(`options.forEach((option, index) => ...)`).  In the source `!option` is
true exactly for the empty string (given a string argument), and then
`option.trim().length === 0` also holds, so the two disjuncts merge into a
single check on the trimmed length. -/
def optionErrors (options : List String) : List String :=
  options.enum.flatMap fun p =>
    if (trimS p.2).length = 0 then [emptyOptionMsg p.1]
    else if (trimS p.2).length > 200 then [longOptionMsg p.1]
    else []

/-- Function `validatePollInput` from `poll-actions.ts`.  A missing `question` form
field (`null` in the source) validates identically to the empty string:
`!question` short-circuits before any method is called on it. -/
def validatePollInput (question : String) (options : List String) : List String :=
  (if (trimS question).length = 0 then ["Question is required"]
   else if (trimS question).length > 500 then ["Question must be less than 500 characters"]
   else [])
  ++ (if options.length < 2 then ["At least 2 options are required"]
      else if options.length > 10 then ["Maximum 10 options allowed"]
      else [])
  ++ optionErrors options

/-- The authenticated identity: `user.id` and `user.user_metadata?.role`. -/
structure User where
  id : String
  role : Option String
deriving DecidableEq, Repr

/-- A row of the `polls` table. -/
structure Poll where
  id : String
  user_id : String
  question : String
  options : List String
  created_at : Nat
deriving DecidableEq, Repr

/-- A row of the `votes` table. -/
structure Vote where
  poll_id : String
  user_id : Option String
  option_index : Int
deriving DecidableEq, Repr

/-- The external backend state: the two tables, plus the log of paths for
which `revalidatePath` has been requested (most recent first). -/
structure Db where
  polls : List Poll
  votes : List Vote
  revalidated : List String
deriving DecidableEq, Repr

/-- Outcome of `supabase.auth.getUser()`: an error (with `data.user` null),
no session, or an authenticated user. -/
inductive Auth where
  | authError (msg : String)
  | anon
  | user (u : User)
deriving DecidableEq, Repr

/-- The form fields read by `createPoll` and `updatePoll`:
`formData.get("question")` and `formData.getAll("options")`. -/
structure FormData where
  question : String
  options : List String
deriving DecidableEq, Repr

/-- The `{ error: string | null }` result of a mutating handler, paired with
the backend state it leaves behind. -/
structure MutResult where
  db : Db
  error : Option String
deriving DecidableEq, Repr

/-- The `{ polls, error }` result of `getUserPolls`. -/
structure UserPollsResult where
  polls : List Poll
  error : Option String
deriving DecidableEq, Repr

/-- Effect of `revalidatePath(path)`: record the cache-invalidation request. -/
def revalidatePathDb (path : String) (db : Db) : Db :=
  { db with revalidated := path :: db.revalidated }

/-- Handler `createPoll` from `poll-actions.ts`.  `newId` and `now` stand for the
row id and creation timestamp generated by the backend on insert.
`formData.getAll("options").filter(Boolean)` drops exactly the empty
strings.  Note the source validates (and sanitizes) before checking
authentication. -/
def createPoll (auth : Auth) (db : Db) (fd : FormData) (newId : String) (now : Nat) : MutResult :=
  let rawOptions := fd.options.filter (fun s => s != "")
  let validationErrors := validatePollInput fd.question rawOptions
  if validationErrors ≠ [] then
    ⟨db, some (String.intercalate ", " validationErrors)⟩
  else
    match auth with
    | .authError m => ⟨db, some m⟩
    | .anon => ⟨db, some "You must be logged in to create a poll."⟩
    | .user u =>
      let db1 := { db with polls := db.polls ++
        [⟨newId, u.id, sanitizeString fd.question, rawOptions.map sanitizeString, now⟩] }
      ⟨revalidatePathDb "/polls" db1, none⟩

/-- Handler `adminDeletePoll` from `poll-actions.ts`: after authentication,
`isAdmin = user.user_metadata?.role === 'admin'`; a non-admin is rejected,
an admin deletes by poll id alone (`.eq("id", id)`, no ownership filter). -/
def adminDeletePoll (auth : Auth) (db : Db) (id : String) : MutResult :=
  match auth with
  | .authError m => ⟨db, some m⟩
  | .anon => ⟨db, some "You must be logged in to delete a poll."⟩
  | .user u =>
    if u.role == some "admin" then
      ⟨revalidatePathDb "/polls" { db with polls := db.polls.filter (fun p => p.id != id) }, none⟩
    else
      ⟨db, some "Admin privileges required to delete any poll."⟩

/-- Descending order on creation timestamps (`newest first`). -/
def pollNewerFirst (a b : Poll) : Prop :=
  b.created_at ≤ a.created_at

instance : DecidableRel pollNewerFirst :=
  fun a b => Nat.decLe b.created_at a.created_at

instance : IsTotal Poll pollNewerFirst :=
  ⟨fun a b => Nat.le_total b.created_at a.created_at⟩

instance : IsTrans Poll pollNewerFirst :=
  ⟨fun _ _ _ hab hbc => Nat.le_trans hbc hab⟩

/-- Handler `getUserPolls` from `poll-actions.ts`: the backend select
`.eq("user_id", user.id).order("created_at", { ascending: false })` is
modelled as filtering the table and returning it sorted newest first; the
auth error field is not read, so any absent user yields
`{ polls: [], error: "Not authenticated" }`. -/
def getUserPolls (auth : Auth) (db : Db) : UserPollsResult :=
  match auth with
  | .user u =>
    ⟨(db.polls.filter (fun p => p.user_id == u.id)).insertionSort pollNewerFirst, none⟩
  | _ => ⟨[], some "Not authenticated"⟩

/-- Handler `submitVote` from `poll-actions.ts`: only `data.user` is destructured
(an auth error is ignored and leaves the user null), the vote row is
inserted with `user_id: user?.id ?? null` and the given `option_index`, with
no bounds check and no `revalidatePath`. -/
def submitVote (auth : Auth) (db : Db) (pollId : String) (optionIndex : Int) : MutResult :=
  let uid := match auth with
    | .user u => some u.id
    | _ => none
  ⟨{ db with votes := db.votes ++ [⟨pollId, uid, optionIndex⟩] }, none⟩

/-- Handler `deletePoll` from `poll-actions.ts`: after authentication, the delete is
restricted by the compound filter `.eq("id", id).eq("user_id", user.id)`. -/
def deletePoll (auth : Auth) (db : Db) (id : String) : MutResult :=
  match auth with
  | .authError m => ⟨db, some m⟩
  | .anon => ⟨db, some "You must be logged in to delete a poll."⟩
  | .user u =>
    ⟨revalidatePathDb "/polls"
      { db with polls := db.polls.filter (fun p => !(p.id == id && p.user_id == u.id)) }, none⟩

/-- Handler `updatePoll` from `poll-actions.ts`: validation and sanitization, then
authentication, then an update restricted by the compound filter
`.eq("id", pollId).eq("user_id", user.id)`.  The source returns without
calling `revalidatePath`. -/
def updatePoll (auth : Auth) (db : Db) (pollId : String) (fd : FormData) : MutResult :=
  let rawOptions := fd.options.filter (fun s => s != "")
  let validationErrors := validatePollInput fd.question rawOptions
  if validationErrors ≠ [] then
    ⟨db, some (String.intercalate ", " validationErrors)⟩
  else
    match auth with
    | .authError m => ⟨db, some m⟩
    | .anon => ⟨db, some "You must be logged in to update a poll."⟩
    | .user u =>
      ⟨{ db with polls := db.polls.map (fun p =>
          if p.id == pollId && p.user_id == u.id then
            { p with question := sanitizeString fd.question,
                     options := rawOptions.map sanitizeString }
          else p) }, none⟩

/-- C2: for an authenticated caller whose user-metadata role is not exactly
`"admin"`, `adminDeletePoll` returns the authorization error and deletes
nothing; for a caller whose role is exactly `"admin"`, it deletes the poll
matching the given identifier alone (no ownership restriction) and requests
revalidation. -/
theorem adminDeletePoll_role_spec (u : User) (db : Db) (id : String) :
    adminDeletePoll (.user u) db id =
      if u.role = some "admin" then
        ⟨revalidatePathDb "/polls"
          { db with polls := db.polls.filter (fun p => p.id != id) }, none⟩
      else
        ⟨db, some "Admin privileges required to delete any poll."⟩ := by
  by_cases h : u.role = some "admin" <;>
    simp [adminDeletePoll, h]

/-- C5: with no authenticated identity, `createPoll`, `updatePoll`,
`deletePoll` and `adminDeletePoll` each return a non-null error and leave the
backend state untouched, while `submitVote` proceeds and inserts the vote
with a null `user_id`. -/
theorem unauthenticated_fail_closed (db : Db) (fd : FormData)
    (newId pollId delId admId votePid : String) (now : Nat) (idx : Int) :
    ((createPoll .anon db fd newId now).error ≠ none
      ∧ (createPoll .anon db fd newId now).db = db)
    ∧ ((updatePoll .anon db pollId fd).error ≠ none
      ∧ (updatePoll .anon db pollId fd).db = db)
    ∧ ((deletePoll .anon db delId).error ≠ none
      ∧ (deletePoll .anon db delId).db = db)
    ∧ ((adminDeletePoll .anon db admId).error ≠ none
      ∧ (adminDeletePoll .anon db admId).db = db)
    ∧ submitVote .anon db votePid idx =
        ⟨{ db with votes := db.votes ++ [⟨votePid, none, idx⟩] }, none⟩ := by
  refine ⟨?_, ?_, ?_, ?_, rfl⟩
  · by_cases h : validatePollInput fd.question (fd.options.filter (fun s => s != "")) = [] <;>
      simp [createPoll, h]
  · by_cases h : validatePollInput fd.question (fd.options.filter (fun s => s != "")) = [] <;>
      simp [updatePoll, h]
  · simp [deletePoll]
  · simp [adminDeletePoll]

/-- C6: for every poll id and every integer option index — negative and
out-of-range values included — `submitVote` performs no bounds check against
the poll's option list: it appends a vote row whose `option_index` is exactly
the given index (with the caller's id when authenticated, null otherwise) and
returns a null error (the backend itself is modelled as not failing). -/
theorem submitVote_no_bounds_check (auth : Auth) (db : Db) (pollId : String)
    (optionIndex : Int) :
    submitVote auth db pollId optionIndex =
      ⟨{ db with votes := db.votes ++
          [⟨pollId,
            match auth with
            | .user u => some u.id
            | _ => none,
            optionIndex⟩] }, none⟩ :=
  rfl

/-- C1: a poll whose `user_id` differs from the authenticated caller's id is
untouched by `deletePoll` and `updatePoll`: the compound filter
(`id` and `user_id`) makes the non-owner's mutation affect zero rows, so the
row is still present unchanged afterwards. -/
theorem nonowner_polls_unchanged (u : User) (db : Db) (delId pollId : String)
    (fd : FormData) (p : Poll) (hmem : p ∈ db.polls) (hne : p.user_id ≠ u.id) :
    p ∈ (deletePoll (.user u) db delId).db.polls
    ∧ p ∈ (updatePoll (.user u) db pollId fd).db.polls := by
  constructor
  · simp only [deletePoll, revalidatePathDb, List.mem_filter]
    refine ⟨hmem, ?_⟩
    simp [hne]
  · by_cases h : validatePollInput fd.question (fd.options.filter (fun s => s != "")) = []
    · simp [updatePoll, h]
      exact ⟨p, hmem, by simp [hne]⟩
    · simp [updatePoll, h, hmem]

/-- Concrete instance of `nonowner_polls_unchanged`: the caller `u1` cannot
delete or change the poll `p1` owned by `u2`. -/
theorem nonowner_polls_unchanged_witness :
    (⟨"p1", "u2", "q", ["a", "b"], 0⟩ : Poll) ∈
      (deletePoll (.user ⟨"u1", none⟩)
        ⟨[⟨"p1", "u2", "q", ["a", "b"], 0⟩], [], []⟩ "p1").db.polls
    ∧ (⟨"p1", "u2", "q", ["a", "b"], 0⟩ : Poll) ∈
      (updatePoll (.user ⟨"u1", none⟩)
        ⟨[⟨"p1", "u2", "q", ["a", "b"], 0⟩], [], []⟩ "p1" ⟨"Q", ["a", "b"]⟩).db.polls :=
  nonowner_polls_unchanged ⟨"u1", none⟩ ⟨[⟨"p1", "u2", "q", ["a", "b"], 0⟩], [], []⟩
    "p1" "p1" ⟨"Q", ["a", "b"]⟩ ⟨"p1", "u2", "q", ["a", "b"], 0⟩ (by decide) (by decide)

/-- C8 counterexample: an unauthenticated `createPoll` call with invalid
input (a single option) returns the validation error, not the
authentication error — the source validates before authenticating, so the
authentication check does not come first and its failure does not determine
the returned error. -/
theorem createPoll_auth_first_counterexample :
    (createPoll .anon ⟨[], [], []⟩ ⟨"Q", ["a"]⟩ "id1" 0).error
      = some "At least 2 options are required"
    ∧ (createPoll .anon ⟨[], [], []⟩ ⟨"Q", ["a"]⟩ "id1" 0).error
      ≠ some "You must be logged in to create a poll." := by
  decide

/-- C8 amended: `createPoll` and `updatePoll` run validation before the
authentication check, so for an unauthenticated caller the validation
failure (when present) determines the returned error and the authentication
failure is reported only on valid input; `deletePoll` and `adminDeletePoll`
check authentication first. -/
theorem createPoll_updatePoll_validate_first (db : Db) (fd : FormData)
    (newId pollId delId admId : String) (now : Nat) :
    (createPoll .anon db fd newId now =
      if validatePollInput fd.question (fd.options.filter (fun s => s != "")) = [] then
        ⟨db, some "You must be logged in to create a poll."⟩
      else
        ⟨db, some (String.intercalate ", "
          (validatePollInput fd.question (fd.options.filter (fun s => s != ""))))⟩)
    ∧ (updatePoll .anon db pollId fd =
      if validatePollInput fd.question (fd.options.filter (fun s => s != "")) = [] then
        ⟨db, some "You must be logged in to update a poll."⟩
      else
        ⟨db, some (String.intercalate ", "
          (validatePollInput fd.question (fd.options.filter (fun s => s != ""))))⟩)
    ∧ deletePoll .anon db delId = ⟨db, some "You must be logged in to delete a poll."⟩
    ∧ adminDeletePoll .anon db admId = ⟨db, some "You must be logged in to delete a poll."⟩ := by
  refine ⟨?_, ?_, rfl, rfl⟩ <;>
    by_cases h : validatePollInput fd.question (fd.options.filter (fun s => s != "")) = [] <;>
      simp [createPoll, updatePoll, h]

/-- C9 counterexample: a successful `updatePoll` (null error, the poll row
actually rewritten) requests no cache invalidation — the source's
`updatePoll` returns without calling `revalidatePath("/polls")`. -/
theorem updatePoll_no_revalidate_counterexample :
    (updatePoll (.user ⟨"u1", none⟩) ⟨[⟨"p1", "u1", "old", ["x", "y"], 5⟩], [], []⟩
      "p1" ⟨"Q?", ["a", "b"]⟩).error = none
    ∧ (updatePoll (.user ⟨"u1", none⟩) ⟨[⟨"p1", "u1", "old", ["x", "y"], 5⟩], [], []⟩
      "p1" ⟨"Q?", ["a", "b"]⟩).db.polls ≠ [⟨"p1", "u1", "old", ["x", "y"], 5⟩]
    ∧ "/polls" ∉ (updatePoll (.user ⟨"u1", none⟩)
      ⟨[⟨"p1", "u1", "old", ["x", "y"], 5⟩], [], []⟩
      "p1" ⟨"Q?", ["a", "b"]⟩).db.revalidated := by
  decide

/-- C9 amended: `createPoll`, `deletePoll` and `adminDeletePoll` request
cache invalidation of "/polls" after a successful backend write, but
`updatePoll` and `submitVote` never request any cache invalidation. -/
theorem revalidation_spec (u : User) (auth : Auth) (db : Db) (fd : FormData)
    (newId pollId delId admId votePid : String) (now : Nat) (idx : Int) :
    ((createPoll (.user u) db fd newId now).db.revalidated =
      if validatePollInput fd.question (fd.options.filter (fun s => s != "")) = [] then
        "/polls" :: db.revalidated
      else db.revalidated)
    ∧ (deletePoll (.user u) db delId).db.revalidated = "/polls" :: db.revalidated
    ∧ ((adminDeletePoll (.user u) db admId).db.revalidated =
      if u.role = some "admin" then "/polls" :: db.revalidated else db.revalidated)
    ∧ (updatePoll auth db pollId fd).db.revalidated = db.revalidated
    ∧ (submitVote auth db votePid idx).db.revalidated = db.revalidated := by
  refine ⟨?_, rfl, ?_, ?_, rfl⟩
  · by_cases h : validatePollInput fd.question (fd.options.filter (fun s => s != "")) = [] <;>
      simp [createPoll, revalidatePathDb, h]
  · by_cases h : u.role = some "admin" <;>
      simp [adminDeletePoll, revalidatePathDb, h]
  · by_cases h : validatePollInput fd.question (fd.options.filter (fun s => s != "")) = []
    · rcases auth with m | _ | u' <;> simp [updatePoll, h]
    · simp [updatePoll, h]

/-- C7: for an authenticated caller, `getUserPolls` returns exactly the
polls whose `user_id` equals the caller's identifier (as a permutation of
the ownership filter of the table), sorted newest first, with a null error;
with no authenticated user (absent session or auth error) it returns the
empty list together with the error `"Not authenticated"`. -/
theorem getUserPolls_spec (u : User) (db : Db) (m : String) :
    List.Perm (getUserPolls (.user u) db).polls
      (db.polls.filter (fun p => p.user_id == u.id))
    ∧ List.Sorted pollNewerFirst (getUserPolls (.user u) db).polls
    ∧ (getUserPolls (.user u) db).error = none
    ∧ getUserPolls .anon db = ⟨[], some "Not authenticated"⟩
    ∧ getUserPolls (.authError m) db = ⟨[], some "Not authenticated"⟩ :=
  ⟨List.perm_insertionSort pollNewerFirst _,
    List.sorted_insertionSort pollNewerFirst _, rfl, rfl, rfl⟩

theorem optionErrors_eq_nil_iff (options : List String) :
    optionErrors options = [] ↔
      ∀ o ∈ options, 1 ≤ (trimS o).length ∧ (trimS o).length ≤ 200 := by
  rw [optionErrors, List.flatMap_eq_nil_iff]
  constructor
  · intro h o ho
    obtain ⟨i, hi⟩ := List.mem_iff_getElem?.1 ho
    have hf := h _ (List.mk_mem_enum_iff_getElem?.2 hi)
    by_cases h0 : (trimS o).length = 0
    · simp [h0] at hf
    · by_cases h2 : (trimS o).length > 200
      · simp [h0, h2] at hf
      · omega
  · intro h p hp
    rcases p with ⟨i, o⟩
    have hmem : o ∈ options :=
      List.mem_iff_getElem?.2 ⟨i, List.mk_mem_enum_iff_getElem?.1 hp⟩
    obtain ⟨h1, h2⟩ := h _ hmem
    have h0 : ¬(trimS o).length = 0 := by omega
    have h2' : ¬(trimS o).length > 200 := by omega
    simp [h0, h2']

/-- C3: `validatePollInput` returns the empty error list exactly when the
trimmed question is non-empty and at most 500 characters, the option count
is between 2 and 10, and every trimmed option is non-empty and at most 200
characters; every option list with fewer than 2 or more than 10 entries
yields a non-empty error list; and whenever the (filtered) input of
`createPoll`/`updatePoll` fails validation, the handler returns the joined
error messages and leaves the backend state untouched. -/
theorem validatePollInput_spec (question : String) (options : List String) :
    (validatePollInput question options = [] ↔
      (1 ≤ (trimS question).length ∧ (trimS question).length ≤ 500
        ∧ 2 ≤ options.length ∧ options.length ≤ 10
        ∧ ∀ o ∈ options, 1 ≤ (trimS o).length ∧ (trimS o).length ≤ 200))
    ∧ (options.length < 2 ∨ 10 < options.length →
        validatePollInput question options ≠ [])
    ∧ ∀ (auth : Auth) (db : Db) (fd : FormData) (newId pollId : String) (now : Nat),
        validatePollInput fd.question (fd.options.filter (fun s => s != "")) ≠ [] →
          createPoll auth db fd newId now =
            ⟨db, some (String.intercalate ", "
              (validatePollInput fd.question (fd.options.filter (fun s => s != ""))))⟩
          ∧ updatePoll auth db pollId fd =
            ⟨db, some (String.intercalate ", "
              (validatePollInput fd.question (fd.options.filter (fun s => s != ""))))⟩ := by
  have hq : (if (trimS question).length = 0 then ["Question is required"]
      else if (trimS question).length > 500 then ["Question must be less than 500 characters"]
      else ([] : List String)) = [] ↔
      (1 ≤ (trimS question).length ∧ (trimS question).length ≤ 500) := by
    split_ifs with h1 h2 <;> simp <;> omega
  have hc : (if options.length < 2 then ["At least 2 options are required"]
      else if options.length > 10 then ["Maximum 10 options allowed"]
      else ([] : List String)) = [] ↔
      (2 ≤ options.length ∧ options.length ≤ 10) := by
    split_ifs with h1 h2 <;> simp <;> omega
  refine ⟨?_, ?_, ?_⟩
  · rw [validatePollInput, List.append_eq_nil, List.append_eq_nil, hq, hc,
      optionErrors_eq_nil_iff]
    tauto
  · intro hlen hcontra
    rw [validatePollInput] at hcontra
    have hB := (List.append_eq_nil.1 (List.append_eq_nil.1 hcontra).1).2
    rcases hlen with h | h
    · rw [if_pos h] at hB
      simp at hB
    · rw [if_neg (by omega), if_pos h] at hB
      simp at hB
  · intro auth db fd newId pollId now hne
    constructor
    · simp [createPoll, hne]
    · simp [updatePoll, hne]

/-- Concrete instance of `validatePollInput_spec`: a single-option list is
rejected and `createPoll` returns the joined validation errors with no
write. -/
theorem validatePollInput_spec_witness :
    validatePollInput "Q" ["a"] ≠ []
    ∧ createPoll .anon ⟨[], [], []⟩ ⟨"Q", ["a"]⟩ "x" 0 =
        ⟨⟨[], [], []⟩, some (String.intercalate ", "
          (validatePollInput "Q" (["a"].filter (fun s => s != ""))))⟩ :=
  ⟨(validatePollInput_spec "Q" ["a"]).2.1 (by decide),
    ((validatePollInput_spec "Q" ["a"]).2.2 .anon ⟨[], [], []⟩ ⟨"Q", ["a"]⟩
      "x" "p" 0 (by decide)).1⟩

theorem string_data_append (a b : String) : (a ++ b).data = a.data ++ b.data :=
  rfl

theorem emptyOptionMsg_lastChar (k : Nat) :
    (emptyOptionMsg k).data.getLast? = some 'y' := by
  rw [emptyOptionMsg, string_data_append, List.getLast?_append]
  rfl

theorem longOptionMsg_lastChar (k : Nat) :
    (longOptionMsg k).data.getLast? = some 's' := by
  rw [longOptionMsg, string_data_append, List.getLast?_append]
  rfl

/-- C10: in `createPoll` and `updatePoll`, empty-string option fields are
dropped by `.filter(Boolean)` before validation, so both handlers behave
exactly as if called on the filtered option list; each dropped empty option
lowers the validated option count by one; and an
`"Option N cannot be empty"` message can arise from these handlers only
from a submitted option that is non-empty but trims to the empty string
(i.e. consists entirely of whitespace). -/
theorem empty_options_filtered_before_validation (auth : Auth) (db : Db)
    (fd : FormData) (newId pollId : String) (now : Nat) (k : Nat) :
    (createPoll auth db fd newId now =
        createPoll auth db ⟨fd.question, fd.options.filter (fun s => s != "")⟩ newId now
      ∧ updatePoll auth db pollId fd =
        updatePoll auth db pollId ⟨fd.question, fd.options.filter (fun s => s != "")⟩)
    ∧ (fd.options.filter (fun s => s != "")).length + fd.options.count "" = fd.options.length
    ∧ (emptyOptionMsg k ∈
        validatePollInput fd.question (fd.options.filter (fun s => s != "")) →
        ∃ o, o ∈ fd.options ∧ o ≠ "" ∧ trimS o = "") := by
  have hff : (fd.options.filter (fun s => s != "")).filter (fun s => s != "")
      = fd.options.filter (fun s => s != "") := by
    rw [List.filter_filter]
    simp
  refine ⟨⟨?_, ?_⟩, ?_, ?_⟩
  · simp only [createPoll, hff]
  · simp only [updatePoll, hff]
  · rw [← List.countP_eq_length_filter, List.count,
      List.length_eq_countP_add_countP (fun s => s != "") fd.options]
    congr 1
    refine List.countP_congr fun a _ => ?_
    cases h : a == "" <;> simp [h, bne]
  · intro hk
    rw [validatePollInput] at hk
    have hy := emptyOptionMsg_lastChar k
    rcases List.mem_append.1 hk with hk | hk
    · rcases List.mem_append.1 hk with hk | hk
      · split_ifs at hk with h1 h2 <;> simp at hk <;>
          (rw [hk] at hy; exact absurd hy (by decide))
      · split_ifs at hk with h1 h2 <;> simp at hk <;>
          (rw [hk] at hy; exact absurd hy (by decide))
    · rw [optionErrors] at hk
      obtain ⟨⟨i, o⟩, hpmem, hin⟩ := List.mem_flatMap.1 hk
      by_cases h0 : (trimS o).length = 0
      · have ho : o ∈ fd.options.filter (fun s => s != "") :=
          List.mem_iff_getElem?.2 ⟨i, List.mk_mem_enum_iff_getElem?.1 hpmem⟩
        have hsplit := List.mem_filter.1 ho
        refine ⟨o, hsplit.1, by simpa using hsplit.2, ?_⟩
        exact String.ext (List.length_eq_zero.1 h0)
      · rw [if_neg h0] at hin
        by_cases h2 : (trimS o).length > 200
        · rw [if_pos h2] at hin
          simp at hin
          rw [hin, longOptionMsg_lastChar] at hy
          exact absurd hy (by decide)
        · rw [if_neg h2] at hin
          simp at hin

/-- Concrete instance of `empty_options_filtered_before_validation`: with
submitted options `[" ", ""]` the empty option is dropped before validation
and the emitted `"Option 1 cannot be empty"` comes from the whitespace-only
option. -/
theorem empty_options_filtered_before_validation_witness :
    createPoll .anon ⟨[], [], []⟩ ⟨"Q", [" ", ""]⟩ "x" 0 =
      createPoll .anon ⟨[], [], []⟩ ⟨"Q", [" ", ""].filter (fun s => s != "")⟩ "x" 0
    ∧ ∃ o, o ∈ ([" ", ""] : List String) ∧ o ≠ "" ∧ trimS o = "" := by
  have h := empty_options_filtered_before_validation .anon ⟨[], [], []⟩
    ⟨"Q", [" ", ""]⟩ "x" "p" 0 0
  exact ⟨h.1.1, h.2.2 (by decide)⟩

/-- No complete HTML tag remains: no `<` in the list is followed, anywhere
later, by a `>` — in particular no substring of the shape `<...>` occurs. -/
def tagFree : List Char → Bool
  | [] => true
  | c :: rest => (if c = '<' then !(rest.contains '>') else true) && tagFree rest

theorem splitAtGt_not_mem {l : List Char} (h : splitAtGt l = none) : '>' ∉ l := by
  induction l with
  | nil => simp
  | cons c cs ih =>
    by_cases hc : c = '>'
    · simp [splitAtGt, hc] at h
    · simp [splitAtGt, hc] at h
      intro hmem
      rcases List.mem_cons.1 hmem with h1 | h1
      · exact hc h1.symm
      · exact ih h h1

theorem splitAtGt_sublist {l r : List Char} (h : splitAtGt l = some r) :
    r.Sublist l := by
  induction l with
  | nil => simp [splitAtGt] at h
  | cons c cs ih =>
    by_cases hc : c = '>'
    · simp [splitAtGt, hc] at h
      subst h
      exact List.sublist_cons_self c cs
    · simp [splitAtGt, hc] at h
      exact (ih h).trans (List.sublist_cons_self c cs)

theorem removeTagsF_sublist : ∀ (fuel : Nat) (l : List Char),
    (removeTagsF fuel l).Sublist l := by
  intro fuel
  induction fuel with
  | zero =>
    intro l
    simp [removeTagsF]
  | succ n ih =>
    intro l
    match l with
    | [] => simp [removeTagsF]
    | c :: rest =>
      rw [removeTagsF]
      by_cases hc : c = '<'
      · rw [if_pos hc]
        cases hs : splitAtGt rest with
        | some rest' =>
          exact ((ih rest').trans (splitAtGt_sublist hs)).trans
            (List.sublist_cons_self c rest)
        | none => exact (ih rest).cons₂ c
      · rw [if_neg hc]
        exact (ih rest).cons₂ c

theorem tagFree_removeTagsF : ∀ (fuel : Nat) (l : List Char),
    l.length ≤ fuel → tagFree (removeTagsF fuel l) = true := by
  intro fuel
  induction fuel with
  | zero => intro l _; rfl
  | succ n ih =>
    intro l hlen
    match l with
    | [] => rfl
    | c :: rest =>
      have hrest : rest.length ≤ n := by
        simp only [List.length_cons] at hlen
        omega
      rw [removeTagsF]
      by_cases hc : c = '<'
      · rw [if_pos hc]
        cases hs : splitAtGt rest with
        | some rest' =>
          have h1 : rest'.length ≤ n := by
            have := splitAtGt_length hs
            omega
          exact ih rest' h1
        | none =>
          have hnm : '>' ∉ removeTagsF n rest := fun hm =>
            splitAtGt_not_mem hs ((removeTagsF_sublist n rest).subset hm)
          simp [tagFree, hc, hnm, ih rest hrest]
      · rw [if_neg hc]
        simp [tagFree, hc, ih rest hrest]

theorem tagFree_sanitizeString (s : String) :
    tagFree (sanitizeString s).data = true := by
  rw [sanitizeString]
  exact tagFree_removeTagsF _ _ le_rfl

/-- C4 counterexample: for the input `"<script>a\nb</script>"` — whose
surrounding text is empty — the claim requires the whole block, content
included, to be removed (result `""`); the lazy `.*?` of the script regex
cannot cross the newline (no `s` flag), so only the generic tag removal
fires and the script content survives: the result is `"a\nb"`. -/
theorem sanitizeString_multiline_script_counterexample :
    sanitizeString "<script>a\nb</script>" = "a\nb"
    ∧ sanitizeString "<script>a\nb</script>" ≠ "" := by
  decide

/-- C4 amended: `sanitizeString` leaves no complete HTML tag in its output
(no `<` is ever followed by a later `>`); a `<script>…</script>` block whose
content contains no line terminator is removed together with its content —
in particular `"<script>alert(1)</script>Hello"` sanitizes to `"Hello"` —
while a block whose content spans several lines loses only its tags, its
content surviving: `"<script>a\nb</script>"` sanitizes to `"a\nb"`. -/
theorem sanitizeString_amended (s : String) :
    tagFree (sanitizeString s).data = true
    ∧ sanitizeString "<script>alert(1)</script>Hello" = "Hello"
    ∧ sanitizeString "<script>a\nb</script>" = "a\nb" :=
  ⟨tagFree_sanitizeString s, by decide, by decide⟩

end Polly
